import Mathlib

/-!
Verification of the misophonia-dataset generation pipeline
(LukasFT/misophonia-dataset) against its natural-language specification.

A shallow embedding of the data model and operations from
src/misophonia_dataset/interface.py, misophonia_dataset.py and mixing.py.
Machine integers are modelled as Int/Nat, numpy floats as rationals (and, for
the RMS computations that take square roots, as real numbers), and fallible
construction as Except.  The numpy random generator is modelled as an abstract
deterministic state machine whose operations are parameters of the
development, constrained by the documented contracts of numpy (shuffle
permutes, integers draws in [low, high), random draws in [0, 1)).
-/

namespace MisoDataset

/-- Dataset splits as in interface.py (SplitT = Literal train/val/test). -/
inductive SplitT where
  | train
  | val
  | test
deriving DecidableEq, Repr

/-- Label types of source items (interface.py SourceDataItem.label_type). -/
inductive LabelType where
  | control
  | trigger
  | background
deriving DecidableEq, Repr

/-- License record (interface.py License). -/
structure License where
  license_url : String
  attribution_name : String
  attribution_url : String
deriving DecidableEq, Repr

/-- Metadata for a single audio file in a source dataset
(interface.py SourceDataItem).  file_path is modelled as a string. -/
structure SourceDataItem where
  split : SplitT
  source_dataset : String
  file_path : String
  freesound_id : Option Int := none
  label_type : LabelType
  labels : List String
  validated_by : Option (List String) := none
  sound_license : Option License := none
  dataset_license : Option License := none
deriving DecidableEq, Repr

/-- A source item placed into one specific mix (interface.py SourceTrack).
The render parameters azimuth/elevation/level/reverb are rationals standing
for the Python floats; the field named end in the source is written «end»
because end is a Lean keyword. -/
structure SourceTrack where
  source_item : SourceDataItem
  start : Int
  «end» : Int
  azimuth : ℚ
  elevation : ℚ
  level : ℚ
  reverb : ℚ
deriving DecidableEq, Repr

/-- Global mixing parameters shared by every track of one mix
(interface.py GlobalMixingParams).  The enumerated string fields keep their
source representation. -/
structure GlobalMixingParams where
  subject_id : String
  speaker_layout : String := "none"
  sample_rate : Int := 44100
  reverb_type : String
  mode : String := "nearest"
  ir_type : String := "BRIR"
deriving DecidableEq, Repr

/-- A multi-channel waveform: np.ndarray of shape (channels, samples),
modelled row-wise with rational samples. -/
structure Waveform where
  data : List (List ℚ)
deriving DecidableEq, Repr

/-- Number of channels, i.e. shape[0]. -/
def Waveform.channels (w : Waveform) : Nat := w.data.length

/-- Number of samples per channel, i.e. shape[1] (length of the first row). -/
def Waveform.sampleCount (w : Waveform) : Nat := (w.data.headD []).length

/-- The mix / ground_truth fields may hold in-memory audio (np.ndarray) or a
path to an audio file on disk (interface.py: np.ndarray | Path). -/
inductive AudioRef where
  | wave (w : Waveform)
  | path (p : String)
deriving DecidableEq, Repr

/-- Sample count of an audio reference, when it is in memory. -/
def AudioRef.sampleCount? : AudioRef → Option Nat
  | .wave w => some w.sampleCount
  | .path _ => none

/-- Fixed default licensing of the mixing process
(interface.py DEFAULT_MIXED_DATASET_LICENSE). -/
def DEFAULT_MIXED_DATASET_LICENSE : List License :=
  [ { license_url := "https://creativecommons.org/licenses/by/4.0/",
      attribution_name := "Lukas Frimer Tholander & Tonio Ermakoff",
      attribution_url := "https://github.com/LukasFT/misophonia-dataset" },
    { license_url := "https://www.apache.org/licenses/LICENSE-2.0/",
      attribution_name := "C. Armstrong, L. Thresh & G. Kearney",
      attribution_url := "https://www.mdpi.com/2076-3417/8/11/2029" } ]

/-- A single mixed item of the dataset (interface.py MisophoniaItem), as a
plain record; the pydantic construction-time validation is the separate
function MisophoniaItem.validate below. -/
structure MisophoniaItem where
  split : SplitT
  uuid : Option String := none
  is_trigger : Bool
  foreground_categories : List String
  background_categories : List String
  mix : AudioRef
  ground_truth : Option AudioRef
  length : Nat
  foregrounds : List SourceTrack
  backgrounds : List SourceTrack
  global_mixing_params : GlobalMixingParams
  mix_licensing : List License := DEFAULT_MIXED_DATASET_LICENSE
  paired_uuid : Option String := none
  experimental_discomfort_level : Option ℚ := none
deriving DecidableEq, Repr

/-- Pydantic field constraint on experimental_discomfort_level
(Field(None, ge=0, le=5)): absent, or between 0 and 5. -/
def discomfortFieldOk (d : Option ℚ) : Bool :=
  match d with
  | none => true
  | some x => decide (0 ≤ x ∧ x ≤ 5)

/-- Validator _check_splits: every foreground and background track's source
item split must equal the item's split. -/
def MisophoniaItem.checkSplits (it : MisophoniaItem) : Bool :=
  (it.foregrounds ++ it.backgrounds).all fun t => t.source_item.split == it.split

/-- Validator _check_ground_truth: ground_truth present iff is_trigger. -/
def MisophoniaItem.checkGroundTruth (it : MisophoniaItem) : Bool :=
  if it.is_trigger && it.ground_truth.isNone then false
  else if !it.is_trigger && it.ground_truth.isSome then false
  else true

/-- Construction-time validation of a MisophoniaItem, given all required
fields: the pydantic field constraint on the discomfort level, then the two
model validators _check_splits and _check_ground_truth.  The before-validator
_auto_compute_categories cannot raise when all fields are supplied, so it
does not appear here.  Returns the item unchanged on success, mirrors the
raised ValueError messages on failure. -/
def MisophoniaItem.validate (it : MisophoniaItem) : Except String MisophoniaItem :=
  if !discomfortFieldOk it.experimental_discomfort_level then
    .error "Input should be less than or equal to 5 and greater than or equal to 0"
  else if !it.checkSplits then
    .error "All foreground and background items must match the MisophoniaItem split."
  else if it.is_trigger && it.ground_truth.isNone then
    .error "If is_trigger is True, ground_truth must not be None."
  else if !it.is_trigger && it.ground_truth.isSome then
    .error "If is_trigger is False, ground_truth must be None."
  else
    .ok it

/-- Successful construction predicate. -/
def MisophoniaItem.constructs (it : MisophoniaItem) : Bool :=
  match it.validate with
  | .ok _ => true
  | .error _ => false

theorem validate_ok_eq (it x : MisophoniaItem) (h : it.validate = .ok x) : x = it := by
  unfold MisophoniaItem.validate at h
  split at h
  · cases h
  · split at h
    · cases h
    · split at h
      · cases h
      · split at h
        · cases h
        · cases h; rfl

theorem checkSplits_eq_false (it : MisophoniaItem) :
    it.checkSplits = false ↔
      ∃ t ∈ it.foregrounds ++ it.backgrounds, t.source_item.split ≠ it.split := by
  rw [← Bool.not_eq_true, MisophoniaItem.checkSplits, List.all_eq_true]
  push_neg
  simp only [ne_eq, beq_iff_eq]

theorem checkGroundTruth_eq_false (it : MisophoniaItem) :
    it.checkGroundTruth = false ↔
      (it.is_trigger = true ∧ it.ground_truth = none) ∨
      (it.is_trigger = false ∧ it.ground_truth ≠ none) := by
  rcases htr : it.is_trigger with _ | _ <;> cases hgt : it.ground_truth <;>
    simp [MisophoniaItem.checkGroundTruth, htr, hgt]

theorem constructs_eq (it : MisophoniaItem) :
    it.constructs =
      (discomfortFieldOk it.experimental_discomfort_level &&
        (it.checkSplits && it.checkGroundTruth)) := by
  unfold MisophoniaItem.constructs MisophoniaItem.validate MisophoniaItem.checkGroundTruth
  rcases hd : discomfortFieldOk it.experimental_discomfort_level with _ | _ <;>
    rcases hsp : it.checkSplits with _ | _ <;>
      rcases htr : it.is_trigger with _ | _ <;>
        cases hgt : it.ground_truth <;>
          simp [hd, hsp, htr, hgt]

/-- C3: with all required fields supplied and well-typed (in particular a
discomfort level satisfying its field constraint), constructing a
MisophoniaItem fails exactly when is_trigger holds with absent ground truth,
or is_trigger is false with present ground truth, or some constituent
foreground or background track's source-item split differs from the item's
split. -/
theorem misophonia_item_construction_fails_iff (it : MisophoniaItem)
    (hd : discomfortFieldOk it.experimental_discomfort_level = true) :
    it.constructs = false ↔
      (it.is_trigger = true ∧ it.ground_truth = none) ∨
      (it.is_trigger = false ∧ it.ground_truth ≠ none) ∨
      (∃ t ∈ it.foregrounds ++ it.backgrounds, t.source_item.split ≠ it.split) := by
  rw [constructs_eq it, hd]
  simp only [Bool.true_and, Bool.and_eq_false_iff, checkSplits_eq_false,
    checkGroundTruth_eq_false]
  exact ⟨fun h => h.elim (fun a => Or.inr (Or.inr a))
      (fun bc => bc.elim Or.inl (fun c => Or.inr (Or.inl c))),
    fun h => h.elim (fun b => Or.inr (Or.inl b))
      (fun ca => ca.elim (fun c => Or.inr (Or.inr c)) (fun a => Or.inl a))⟩

/-- A concrete control-labelled test-split source item. -/
def srcTestControl : SourceDataItem :=
  { split := .test, source_dataset := "fsd50k", file_path := "c.wav",
    label_type := .control, labels := ["speech"] }

/-- A concrete track over srcTestControl. -/
def trackTestControl : SourceTrack :=
  { source_item := srcTestControl, start := 0, «end» := 3,
    azimuth := 10, elevation := 0, level := 1/2, reverb := 0 }

/-- Concrete global mixing parameters. -/
def gmpFixed : GlobalMixingParams := { subject_id := "D1", reverb_type := "1" }

/-- A concrete two-channel waveform of three samples. -/
def waveThree : Waveform := ⟨[[1, 0, 0], [0, 1, 0]]⟩

/-- A concrete item with is_trigger = true and ground_truth absent. -/
def itemTrigNoGt : MisophoniaItem :=
  { split := .test, is_trigger := true, foreground_categories := ["speech"],
    background_categories := [], mix := .wave waveThree, ground_truth := none,
    length := 3, foregrounds := [trackTestControl], backgrounds := [],
    global_mixing_params := gmpFixed }

theorem misophonia_item_construction_fails_iff_witness :
    discomfortFieldOk itemTrigNoGt.experimental_discomfort_level = true ∧
    (itemTrigNoGt.constructs = false ↔
      (itemTrigNoGt.is_trigger = true ∧ itemTrigNoGt.ground_truth = none) ∨
      (itemTrigNoGt.is_trigger = false ∧ itemTrigNoGt.ground_truth ≠ none) ∨
      (∃ t ∈ itemTrigNoGt.foregrounds ++ itemTrigNoGt.backgrounds,
        t.source_item.split ≠ itemTrigNoGt.split)) :=
  ⟨by decide, misophonia_item_construction_fails_iff itemTrigNoGt (by decide)⟩

/-- A concrete item whose length field (7) differs from the sample count of
its mix waveform (3), with every other invariant satisfied. -/
def itemLengthMismatch : MisophoniaItem :=
  { split := .test, is_trigger := false, foreground_categories := ["speech"],
    background_categories := [], mix := .wave waveThree, ground_truth := none,
    length := 7, foregrounds := [trackTestControl], backgrounds := [],
    global_mixing_params := gmpFixed }

/-- C4 counterexample: an item whose length field differs from its mix
waveform's sample count is accepted by construction-time validation, so the
claimed construction-time failure does not happen. -/
theorem length_invariant_not_enforced_counterexample :
    itemLengthMismatch.mix.sampleCount? = some 3 ∧
    itemLengthMismatch.length = 7 ∧
    itemLengthMismatch.constructs = true := by
  decide

/-- C4 amended: construction-time validation never inspects the length field,
so its outcome is unchanged under any reassignment of length; the invariant
that length equals the mix's sample count holds for pipeline-generated items
only because their builders set length to mix.shape[1]. -/
theorem construction_ignores_length (it : MisophoniaItem) (n : Nat) :
    ({ it with length := n } : MisophoniaItem).constructs = it.constructs := by
  rw [constructs_eq, constructs_eq]
  cases it
  rfl

/-- Abstract deterministic model of the numpy random generator used by the
sampling planner (np.random.default_rng): a state type with the operations
the planner consumes, each returning the advanced state alongside the drawn
value, so that every draw comes from the single planning generator in program
order. -/
structure RngOps (σ : Type) where
  defaultRng : Int → σ
  shuffle : σ → List Nat → σ × List Nat
  integers : σ → Int → Int → σ × Int
  random : σ → σ × ℚ

/-- Documented numpy contract of Generator.shuffle: the shuffled array is a
permutation of the input. -/
def RngOps.ShuffleLawful {σ : Type} (ops : RngOps σ) : Prop :=
  ∀ s l, ((ops.shuffle s l).2).Perm l

/-- Documented numpy contract of Generator.integers(low, high): the value
lies in [low, high). -/
def RngOps.IntegersLawful {σ : Type} (ops : RngOps σ) : Prop :=
  ∀ s lo hi, lo < hi → lo ≤ (ops.integers s lo hi).2 ∧ (ops.integers s lo hi).2 < hi

/-- Documented numpy contract of Generator.random(): the value lies in
[0, 1). -/
def RngOps.RandomLawful {σ : Type} (ops : RngOps σ) : Prop :=
  ∀ s, 0 ≤ (ops.random s).2 ∧ (ops.random s).2 < 1

/-- State of one lazy index cycle (make_idx_cycle): order is the array that
is reshuffled in place, pending the indices of the current round not yet
yielded. -/
structure CycleState where
  order : List Nat
  pending : List Nat
deriving DecidableEq, Repr

/-- A freshly created cycle over a pool of size n: order = np.arange(n), and
nothing yielded yet (generators are lazy, so creation consumes no
randomness). -/
def initCycle (n : Nat) : CycleState := ⟨List.range n, []⟩

/-- One step of the make_idx_cycle generator: yield the next pending index,
or reshuffle order and yield its head.  For an empty pool the generator body
loops forever without yielding, so the step has no result (none). -/
def cycleNext {σ : Type} (ops : RngOps σ) (s : σ) (c : CycleState) :
    Option (σ × CycleState × Nat) :=
  match c.pending with
  | i :: rest => some (s, ⟨c.order, rest⟩, i)
  | [] =>
    match ops.shuffle s c.order with
    | (_, []) => none
    | (s2, i :: rest) => some (s2, ⟨i :: rest, rest⟩, i)

/-- Draw k consecutive indices from a cycle, threading the generator state;
none when a draw hits the never-yielding empty cycle. -/
def cycleDrawN {σ : Type} (ops : RngOps σ) :
    σ → CycleState → Nat → Option (σ × CycleState × List Nat)
  | s, c, 0 => some (s, c, [])
  | s, c, k+1 =>
    match cycleNext ops s c with
    | none => none
    | some (s2, c2, i) =>
      match cycleDrawN ops s2 c2 k with
      | none => none
      | some (s3, c3, l) => some (s3, c3, i :: l)

/-- The per-item seed array drawn before the planning loop:
rng_plan.integers(0, 2**32 - 1, size=num_samples), i.e. num_samples
sequential draws from [0, 2^32 - 1). -/
def drawSeeds {σ : Type} (ops : RngOps σ) : σ → Nat → σ × List Int
  | s, 0 => (s, [])
  | s, k+1 =>
    let r := ops.integers s 0 (2 ^ 32 - 1)
    let rest := drawSeeds ops r.1 k
    (rest.1, r.2 :: rest.2)

/-- Generation parameters of GeneratedMisophoniaDataset.get_split consumed by
the sampling plan.  trig_to_control_frac stands for the source field
trig_to_control_ratio. -/
structure PlanParams where
  num_samples : Nat
  foregrounds_per_item : Int × Int
  backgrounds_per_item : Int × Int
  trig_to_control_frac : ℚ
deriving DecidableEq, Repr

/-- The four parallel output arrays of _make_sampling_plan. -/
structure SamplingPlan where
  is_trig_for_item : List Bool
  fg_indices_for_item : List (List Nat)
  bg_indices_for_item : List (List Nat)
  seeds_for_item : List Int
deriving DecidableEq, Repr

/-- The two ValueError guards of _make_sampling_plan. -/
inductive PlanError where
  | noTriggerItems
  | noControlItems
deriving DecidableEq, Repr

/-- Outcome of planning: a raised configuration error, divergence (a draw
from the empty pool's cycle, whose generator never yields), or the plan. -/
inductive PlanOutcome where
  | error (e : PlanError)
  | diverge
  | ok (plan : SamplingPlan)
deriving DecidableEq, Repr

/-- The per-item planning loop of _make_sampling_plan: for each output item
draw the foreground count, the background count, the Bernoulli trigger
decision, then that many indices from the trigger-or-control cycle and from
the background cycle. -/
def planLoop {σ : Type} (ops : RngOps σ) (p : PlanParams) :
    Nat → σ → CycleState → CycleState → CycleState →
      Option (List Bool × List (List Nat) × List (List Nat))
  | 0, _, _, _, _ => some ([], [], [])
  | k+1, s, trigC, ctrlC, bgC =>
    let r1 := ops.integers s p.foregrounds_per_item.1 (p.foregrounds_per_item.2 + 1)
    let r2 := ops.integers r1.1 p.backgrounds_per_item.1 (p.backgrounds_per_item.2 + 1)
    let r3 := ops.random r2.1
    let numFg := r1.2.toNat
    let numBg := r2.2.toNat
    let isTrig : Bool := decide (r3.2 < p.trig_to_control_frac)
    match cycleDrawN ops r3.1 (if isTrig then trigC else ctrlC) numFg with
    | none => none
    | some (s4, fgC, fgIdxs) =>
      let trigC2 := if isTrig then fgC else trigC
      let ctrlC2 := if isTrig then ctrlC else fgC
      match cycleDrawN ops s4 bgC numBg with
      | none => none
      | some (s5, bgC2, bgIdxs) =>
        match planLoop ops p k s5 trigC2 ctrlC2 bgC2 with
        | none => none
        | some (ts, fgs, bgs) => some (isTrig :: ts, fgIdxs :: fgs, bgIdxs :: bgs)

/-- The sampling planner _make_sampling_plan: seed one generator from
random_seed, guard the two empty-pool configuration errors, draw the
per-item seed array, then run the planning loop over the three index cycles
(pool sizes nTrig, nCtrl, nBg). -/
def makeSamplingPlan {σ : Type} (ops : RngOps σ) (random_seed : Int)
    (p : PlanParams) (nTrig nCtrl nBg : Nat) : PlanOutcome :=
  let s0 := ops.defaultRng random_seed
  if nTrig = 0 ∧ 0 < p.trig_to_control_frac then .error .noTriggerItems
  else if nCtrl = 0 ∧ p.trig_to_control_frac < 1 then .error .noControlItems
  else
    let sr := drawSeeds ops s0 p.num_samples
    match planLoop ops p p.num_samples sr.1
        (initCycle nTrig) (initCycle nCtrl) (initCycle nBg) with
    | none => .diverge
    | some (ts, fgs, bgs) => .ok ⟨ts, fgs, bgs, sr.2⟩

/-- C1: the sampling plan is a pure function of the random seed, the
generation parameters and the pool sizes; two runs on identical inputs (over
any one generator semantics) return identical outcomes, in particular the
same trigger flags, foreground-index lists, background-index lists, and
per-item seed array. -/
theorem sampling_plan_deterministic {σ : Type} (ops : RngOps σ)
    (seed1 seed2 : Int) (p1 p2 : PlanParams) (nT1 nT2 nC1 nC2 nB1 nB2 : Nat)
    (hs : seed1 = seed2) (hp : p1 = p2) (hT : nT1 = nT2) (hC : nC1 = nC2)
    (hB : nB1 = nB2) :
    makeSamplingPlan ops seed1 p1 nT1 nC1 nB1 =
      makeSamplingPlan ops seed2 p2 nT2 nC2 nB2 := by
  subst hs hp hT hC hB
  rfl

/-- A concrete generator-model instance for witnesses and counterexamples:
the state counts consumed draws; shuffle leaves the list unchanged on even
states and reverses it on odd states, integers returns its lower bound,
random returns 0. -/
def stepOps : RngOps Nat where
  defaultRng := fun seed => seed.toNat
  shuffle := fun s l => (s + 1, if s % 2 = 0 then l else l.reverse)
  integers := fun s lo _ => (s + 1, lo)
  random := fun s => (s + 1, 0)

theorem stepOps_shuffle_lawful : stepOps.ShuffleLawful := by
  intro s l
  show (if s % 2 = 0 then l else l.reverse).Perm l
  split
  · exact List.Perm.refl l
  · exact l.reverse_perm

/-- A concrete parameter set: one item, one foreground and one background per
item, every item a trigger. -/
def pOneEach : PlanParams := ⟨1, (1, 1), (1, 1), 1⟩

theorem sampling_plan_deterministic_witness :
    makeSamplingPlan stepOps 42 pOneEach 2 2 1 =
      makeSamplingPlan stepOps 42 pOneEach 2 2 1 :=
  sampling_plan_deterministic stepOps 42 42 pOneEach pOneEach 2 2 2 2 1 1
    rfl rfl rfl rfl rfl

theorem cycleDrawN_drain {σ : Type} (ops : RngOps σ) (p : List Nat) :
    ∀ (ord : List Nat) (s : σ),
      cycleDrawN ops s ⟨ord, p⟩ p.length = some (s, ⟨ord, []⟩, p) := by
  induction p with
  | nil => intro ord s; rfl
  | cons i rest ih =>
    intro ord s
    simp only [List.length_cons, cycleDrawN, cycleNext]
    rw [ih ord s]

theorem cycleDrawN_add {σ : Type} (ops : RngOps σ) (a : Nat) :
    ∀ (b : Nat) (s : σ) (c : CycleState),
      cycleDrawN ops s c (a + b) =
        match cycleDrawN ops s c a with
        | none => none
        | some (s2, c2, l1) =>
          match cycleDrawN ops s2 c2 b with
          | none => none
          | some (s3, c3, l2) => some (s3, c3, l1 ++ l2) := by
  induction a with
  | zero =>
    intro b s c
    simp only [Nat.zero_add, cycleDrawN]
    cases h : cycleDrawN ops s c b with
    | none => rfl
    | some v => rcases v with ⟨s3, c3, l2⟩; simp
  | succ a ih =>
    intro b s c
    rw [Nat.succ_add]
    simp only [cycleDrawN]
    cases hn : cycleNext ops s c with
    | none => rfl
    | some v =>
      rcases v with ⟨s2, c2, i⟩
      simp only [ih b s2 c2]
      cases h1 : cycleDrawN ops s2 c2 a with
      | none => rfl
      | some w =>
        rcases w with ⟨s3, c3, l1⟩
        cases h2 : cycleDrawN ops s3 c3 b with
        | none => simp [h2]
        | some u => rcases u with ⟨s4, c4, l2⟩; simp [h2]

theorem cycleDrawN_fresh_block {σ : Type} (ops : RngOps σ) (s s2 : σ)
    (ord : List Nat) (i : Nat) (rest : List Nat)
    (h : ops.shuffle s ord = (s2, i :: rest)) :
    cycleDrawN ops s ⟨ord, []⟩ (rest.length + 1) =
      some (s2, ⟨i :: rest, []⟩, i :: rest) := by
  simp only [cycleDrawN, cycleNext, h]
  rw [cycleDrawN_drain ops rest (i :: rest) s2]

/-- State and order array after m in-place reshuffles of the given order,
threading the generator state. -/
def nthOrder {σ : Type} (ops : RngOps σ) (s : σ) (ord : List Nat) :
    Nat → σ × List Nat
  | 0 => (s, ord)
  | m+1 =>
    let p := nthOrder ops s ord m
    ops.shuffle p.1 p.2

theorem cycleDrawN_blocks {σ : Type} (ops : RngOps σ) (hs : ops.ShuffleLawful)
    (s : σ) (n : Nat) (hn : 1 ≤ n) :
    ∀ m : Nat, ∃ draws : List Nat,
      cycleDrawN ops s (initCycle n) (m * n) =
        some ((nthOrder ops s (List.range n) m).1,
          ⟨(nthOrder ops s (List.range n) m).2, []⟩, draws) ∧
      draws.length = m * n ∧
      ((nthOrder ops s (List.range n) m).2).Perm (List.range n) := by
  intro m
  induction m with
  | zero =>
    refine ⟨[], ?_, ?_, List.Perm.refl _⟩
    · rw [Nat.zero_mul]
      rfl
    · rw [Nat.zero_mul]
      rfl
  | succ m ih =>
    obtain ⟨draws, hrun, hlen, hperm⟩ := ih
    rcases hsh : ops.shuffle (nthOrder ops s (List.range n) m).1
        (nthOrder ops s (List.range n) m).2 with ⟨s2, o⟩
    have hnth : nthOrder ops s (List.range n) (m + 1) = (s2, o) := by
      simp only [nthOrder]
      rw [hsh]
    have hop : o.Perm (List.range n) := by
      have h1 := hs (nthOrder ops s (List.range n) m).1
        (nthOrder ops s (List.range n) m).2
      rw [hsh] at h1
      exact h1.trans hperm
    have holen : o.length = n := by rw [hop.length_eq, List.length_range]
    obtain ⟨i, rest, ho⟩ : ∃ i rest, o = i :: rest := by
      cases o with
      | nil => simp at holen; omega
      | cons i rest => exact ⟨i, rest, rfl⟩
    subst ho
    have hblock := cycleDrawN_fresh_block ops
      (nthOrder ops s (List.range n) m).1 s2
      (nthOrder ops s (List.range n) m).2 i rest hsh
    have hadd := cycleDrawN_add ops (m * n) (rest.length + 1) s (initCycle n)
    rw [hrun] at hadd
    simp only [hblock] at hadd
    have hblocklen : rest.length + 1 = n := by simpa using holen
    refine ⟨draws ++ i :: rest, ?_, ?_, ?_⟩
    · rw [hnth]
      have harith : (m + 1) * n = m * n + (rest.length + 1) := by
        rw [hblocklen, Nat.succ_mul]
      rw [harith]
      exact hadd
    · simp only [List.length_append, List.length_cons, hlen]
      rw [hblocklen, Nat.succ_mul]
    · rw [hnth]
      exact hop

/-- C2 amended: aligned blocks of the index cycle are permutations — for a
pool of size n ≥ 1, and any behaviour of the generator consistent with the
shuffle contract, the draws at positions [m*n, (m+1)*n) of the cycle form a
permutation of 0..n-1, i.e. within each shuffle round every pool item is
used exactly once.  (An arbitrary window of n consecutive draws straddling a
reshuffle boundary may repeat an index; see the counterexample.) -/
theorem cycle_aligned_block_perm {σ : Type} (ops : RngOps σ)
    (hs : ops.ShuffleLawful) (s : σ) (n m : Nat) (hn : 1 ≤ n) :
    ∃ s2 c2 draws,
      cycleDrawN ops s (initCycle n) ((m + 1) * n) = some (s2, c2, draws) ∧
      (draws.drop (m * n)).Perm (List.range n) := by
  obtain ⟨draws, hrun, hlen, hperm⟩ := cycleDrawN_blocks ops hs s n hn m
  rcases hsh : ops.shuffle (nthOrder ops s (List.range n) m).1
      (nthOrder ops s (List.range n) m).2 with ⟨s2, o⟩
  have hop : o.Perm (List.range n) := by
    have h1 := hs (nthOrder ops s (List.range n) m).1
      (nthOrder ops s (List.range n) m).2
    rw [hsh] at h1
    exact h1.trans hperm
  have holen : o.length = n := by rw [hop.length_eq, List.length_range]
  obtain ⟨i, rest, ho⟩ : ∃ i rest, o = i :: rest := by
    cases o with
    | nil => simp at holen; omega
    | cons i rest => exact ⟨i, rest, rfl⟩
  subst ho
  have hblock := cycleDrawN_fresh_block ops
    (nthOrder ops s (List.range n) m).1 s2
    (nthOrder ops s (List.range n) m).2 i rest hsh
  have hadd := cycleDrawN_add ops (m * n) (rest.length + 1) s (initCycle n)
  rw [hrun] at hadd
  simp only [hblock] at hadd
  have hblocklen : rest.length + 1 = n := by simpa using holen
  have harith : (m + 1) * n = m * n + (rest.length + 1) := by
    rw [hblocklen, Nat.succ_mul]
  refine ⟨s2, ⟨i :: rest, []⟩, draws ++ i :: rest, by rw [harith]; exact hadd, ?_⟩
  rw [← hlen, List.drop_left]
  exact hop

/-- C2 claim as stated: over every generator behaviour consistent with the
shuffle contract, every window of n consecutive draws from the index cycle
of a pool of size n ≥ 1 — starting at an arbitrary position — would be a
permutation of 0..n-1. -/
def cycleWindowClaim : Prop :=
  ∀ (σ : Type) (ops : RngOps σ), ops.ShuffleLawful →
    ∀ (s : σ) (n start : Nat), 1 ≤ n →
      ∀ s2 c2 draws,
        cycleDrawN ops s (initCycle n) (start + n) = some (s2, c2, draws) →
          (draws.drop start).Perm (List.range n)

/-- C2 counterexample: under the lawful generator model stepOps, the cycle
over a pool of size 2 yields draws 0, 1, 1, …, whose window of 2 consecutive
draws starting at position 1 is [1, 1] — not a permutation of 0..1.  So the
claim fails for windows that straddle a reshuffle boundary. -/
theorem cycle_window_claim_false : ¬ cycleWindowClaim := by
  intro h
  have hdraw : cycleDrawN stepOps 0 (initCycle 2) 3 =
      some (2, ⟨[1, 0], [0]⟩, [0, 1, 1]) := by decide
  have h2 := h Nat stepOps stepOps_shuffle_lawful 0 2 1 (by decide) 2
    ⟨[1, 0], [0]⟩ [0, 1, 1] hdraw
  exact absurd h2 (by decide)

theorem cycle_aligned_block_perm_witness :
    ∃ s2 c2 draws,
      cycleDrawN stepOps 0 (initCycle 2) ((1 + 1) * 2) = some (s2, c2, draws) ∧
      (draws.drop (1 * 2)).Perm (List.range 2) :=
  cycle_aligned_block_perm stepOps stepOps_shuffle_lawful 0 2 1 (by decide)

/-- Parameters that request one background index per item (and one
foreground, all items triggers). -/
def pEmptyBgProbe : PlanParams := ⟨1, (1, 1), (1, 1), 1⟩

/-- Parameters duplicating pEmptyBgProbe except that every item is a
control. -/
def pAllControlProbe : PlanParams := ⟨1, (1, 1), (1, 1), 0⟩

/-- C8: evaluation of the planner at the three empty-pool configurations.
The two ratio guards do raise a configuration error before any work (empty
trigger pool with positive ratio; empty control pool with ratio below one).
But with an empty background pool and one background index requested, the
planner neither raises nor proceeds: make_idx_cycle(0) shuffles an empty
array forever without ever yielding, so requesting its first index never
returns — the planning computation diverges at the failing input. -/
theorem empty_pool_behaviour :
    makeSamplingPlan stepOps 0 pEmptyBgProbe 0 1 1 = .error .noTriggerItems ∧
    makeSamplingPlan stepOps 0 pAllControlProbe 1 0 1 = .error .noControlItems ∧
    makeSamplingPlan stepOps 0 pEmptyBgProbe 1 1 0 = .diverge := by
  decide

/-- An index argument to MisophoniaDatasetSplit.__getitem__: a single integer
or a list of integers (the slice branch is not modelled here). -/
inductive IndexArg where
  | int (i : Int)
  | list (l : List Int)

/-- Result of indexing the split view: one item, a list of items, or a raised
IndexError carrying the (already adjusted) offending index. -/
inductive GetResult (α : Type) where
  | one (x : α)
  | many (xs : List α)
  | indexError (idx : Int)
deriving DecidableEq

/-- MisophoniaDatasetSplit.__getitem__ over an abstract per-index function
get_one: a list argument is mapped through get_one entry by entry and
returned before any bounds logic runs; an integer argument is adjusted once
by adding num_samples when negative, then bounds-checked against
[0, num_samples), raising IndexError(adjusted) when outside. -/
def splitGetitem {α : Type} (num_samples : Nat) (get_one : Int → α) :
    IndexArg → GetResult α
  | .list l => .many (l.map get_one)
  | .int idx =>
    let idx2 := if idx < 0 then idx + num_samples else idx
    if 0 ≤ idx2 ∧ idx2 < num_samples then .one (get_one idx2)
    else .indexError idx2

/-- C10: list indexing of a split view passes every entry to get_one raw —
no bounds check and no negative-index normalization, so out-of-range entries
cannot raise the view's IndexError — whereas integer indexing returns an
item exactly for integers in [-num_samples, num_samples), raising IndexError
otherwise after the single negative-index adjustment. -/
theorem split_getitem_spec {α : Type} (n : Nat) (get_one : Int → α) :
    (∀ l : List Int, splitGetitem n get_one (.list l) = .many (l.map get_one)) ∧
    (∀ i : Int,
      (∃ x, splitGetitem n get_one (.int i) = .one x) ↔ -(n : Int) ≤ i ∧ i < n) ∧
    (∀ i : Int, i < 0 →
      splitGetitem n get_one (.int i) = splitGetitem n get_one (.int (i + n)) ∨
        splitGetitem n get_one (.int i) = .indexError (i + n)) := by
  refine ⟨fun l => rfl, fun i => ?_, fun i hi => ?_⟩
  · constructor
    · rintro ⟨x, hx⟩
      unfold splitGetitem at hx
      by_cases hneg : i < 0
      · simp only [if_pos hneg] at hx
        split at hx
        · omega
        · cases hx
      · simp only [if_neg hneg] at hx
        split at hx
        · omega
        · cases hx
    · rintro ⟨hlo, hhi⟩
      unfold splitGetitem
      by_cases hneg : i < 0
      · simp only [if_pos hneg]
        rw [if_pos (by omega)]
        exact ⟨get_one (i + n), rfl⟩
      · simp only [if_neg hneg]
        rw [if_pos (by omega)]
        exact ⟨get_one i, rfl⟩
  · unfold splitGetitem
    simp only [if_pos hi]
    by_cases hin : 0 ≤ i + (n : Int) ∧ i + n < n
    · left
      have hnn : ¬ (i + (n : Int) < 0) := by omega
      rw [if_neg hnn, if_pos hin]
    · right
      rw [if_neg hin]

/-- The padding helper _add_padding of pad_and_normalize_audio_files
(mixing.py): needed = target_length - len(aud) must be nonnegative (the
assert), needed = 0 returns the track unchanged, and otherwise start leading
zeros and needed - start trailing zeros are added, where start models the
value of the draw np.random.randint(0, needed) — an integer in [0, needed).
The samples are rationals standing for float32. -/
def addPadding (aud : List ℚ) (target_length : Nat) (start : Nat) :
    Option (List ℚ) :=
  if target_length < aud.length then none
  else if aud.length = target_length then some aud
  else some (List.replicate start 0 ++ aud ++
    List.replicate (target_length - aud.length - start) 0)

/-- C6 amended: for a track no longer than the window, padding with any
start value the code can draw (start < max_length - length when the track is
shorter, start = 0 — the unchanged track — when it already fills the window)
succeeds, the padded track has exactly target_length samples, and the
original audio is recovered by the slice [start : start + length].  The
draw np.random.randint(0, needed) excludes the upper bound, so start ranges
over [0, max_length - length - 1], not the claimed inclusive range, and it
comes from the global legacy NumPy generator rather than a per-mix one. -/
theorem padding_spec (aud : List ℚ) (target_length start : Nat)
    (hlen : aud.length ≤ target_length)
    (hstart : aud.length < target_length → start < target_length - aud.length) :
    ∃ padded, addPadding aud target_length start = some padded ∧
      padded.length = target_length ∧
      (padded.drop (if aud.length = target_length then 0 else start)).take
        aud.length = aud := by
  by_cases heq : aud.length = target_length
  · refine ⟨aud, ?_, heq, ?_⟩
    · unfold addPadding
      rw [if_neg (by omega), if_pos heq]
    · rw [if_pos heq]
      simp
  · have hlt : aud.length < target_length := by omega
    have hs := hstart hlt
    refine ⟨List.replicate start 0 ++ aud ++
      List.replicate (target_length - aud.length - start) 0, ?_, ?_, ?_⟩
    · unfold addPadding
      rw [if_neg (by omega), if_neg heq]
    · simp only [List.length_append, List.length_replicate]
      omega
    · rw [if_neg heq]
      rw [List.append_assoc, List.drop_left' (List.length_replicate start (0 : ℚ))]
      exact List.take_left aud _

/-- C6 counterexample: for a one-sample track in a two-sample window
(needed = 1), the claimed inclusive uniform draw over [0, 1] would allow the
right-flush placement [0, 5]; but np.random.randint(0, 1) only yields values
strictly below 1, so no drawable start produces it — start = needed never
occurs. -/
theorem padding_claim_false :
    ¬ ∃ start : Nat, start < 1 ∧ addPadding [(5 : ℚ)] 2 start = some [0, 5] := by
  rintro ⟨start, hs, h⟩
  have h0 : start = 0 := by omega
  subst h0
  exact absurd h (by decide)

theorem padding_spec_witness :
    ∃ padded, addPadding [(5 : ℚ)] 3 1 = some padded ∧
      padded.length = 3 ∧
      (padded.drop (if [(5 : ℚ)].length = 3 then 0 else 1)).take
        [(5 : ℚ)].length = [(5 : ℚ)] :=
  padding_spec [(5 : ℚ)] 3 1 (by decide) (fun _ => by decide)

/-- Contents of one split directory {base}/{name}/{split}: the wav file
names under mixes/ and ground_truths/, and the lines of metadata.jsonl in
write order. -/
structure SplitDirContents where
  mix_files : List String
  gt_files : List String
  metadata_lines : List String
deriving DecidableEq, Repr

/-- The if_exists conflict policy of save_split. -/
inductive IfExists where
  | error
  | replace
  | append
deriving DecidableEq, Repr

/-- A split directory right after mkdir of mixes/ and ground_truths/. -/
def emptyDir : SplitDirContents := ⟨[], [], []⟩

/-- Componentwise concatenation of directory contents. -/
def SplitDirContents.concat (a b : SplitDirContents) : SplitDirContents :=
  ⟨a.mix_files ++ b.mix_files, a.gt_files ++ b.gt_files,
    a.metadata_lines ++ b.metadata_lines⟩

/-- The model_copy step of _generate_and_save: the saved item carries the
fresh uuid and its audio fields replaced by split-relative paths. -/
def itemWithPaths (it : MisophoniaItem) (mix_id : String) : MisophoniaItem :=
  { it with uuid := some mix_id,
            mix := .path ("mixes/" ++ mix_id ++ ".wav"),
            ground_truth := it.ground_truth.map
              (fun _ => AudioRef.path ("ground_truths/" ++ mix_id ++ ".wav")) }

/-- Effect on disk of _generate_and_save for one item with its fresh random
id: write mixes/{id}.wav, write ground_truths/{id}.wav exactly when the item
has a ground truth, and append one serialized metadata line (serialization
itself is abstract). -/
def saveOne (serialize : MisophoniaItem → String) (d : SplitDirContents)
    (it : MisophoniaItem) (mix_id : String) : SplitDirContents :=
  { mix_files := d.mix_files ++ [mix_id ++ ".wav"],
    gt_files := d.gt_files ++
      (if it.ground_truth.isSome then [mix_id ++ ".wav"] else []),
    metadata_lines := d.metadata_lines ++ [serialize (itemWithPaths it mix_id)] }

/-- Write every item of the split with its pre-assigned fresh id, in one
fixed completion order. -/
def writeAll (serialize : MisophoniaItem → String) (d : SplitDirContents) :
    List MisophoniaItem → List String → SplitDirContents
  | [], _ => d
  | _ :: _, [] => d
  | it :: items, mix_id :: ids =>
    writeAll serialize (saveOne serialize d it mix_id) items ids

/-- Result of save_split on the modelled directory state: either the
FileExistsError raised before any file is written (carrying the untouched
directory state), or the directory contents after all writes. -/
inductive SaveResult where
  | raised (dirAfter : Option SplitDirContents)
  | saved (dirAfter : SplitDirContents)
deriving DecidableEq

/-- PremadeMisophoniaDataset.save_split on the modelled directory state: if
the split directory exists, policy error raises FileExistsError before any
write, replace removes the tree (shutil.rmtree) and writes into a fresh
directory, append writes into the existing contents; a missing directory is
created fresh under every policy. -/
def saveSplit (serialize : MisophoniaItem → String)
    (dir : Option SplitDirContents) (if_exists : IfExists)
    (items : List MisophoniaItem) (ids : List String) : SaveResult :=
  match dir, if_exists with
  | some d, .error => .raised (some d)
  | some _, .replace => .saved (writeAll serialize emptyDir items ids)
  | some d, .append => .saved (writeAll serialize d items ids)
  | none, _ => .saved (writeAll serialize emptyDir items ids)

theorem saveOne_concat (serialize : MisophoniaItem → String)
    (d : SplitDirContents) (it : MisophoniaItem) (mix_id : String) :
    saveOne serialize d it mix_id =
      d.concat (saveOne serialize emptyDir it mix_id) := by
  cases d
  simp [saveOne, SplitDirContents.concat, emptyDir]

theorem splitDir_concat_assoc (a b c : SplitDirContents) :
    (a.concat b).concat c = a.concat (b.concat c) := by
  cases a; cases b; cases c
  simp [SplitDirContents.concat]

theorem writeAll_concat (serialize : MisophoniaItem → String)
    (items : List MisophoniaItem) :
    ∀ (ids : List String) (d : SplitDirContents),
      writeAll serialize d items ids =
        d.concat (writeAll serialize emptyDir items ids) := by
  induction items with
  | nil =>
    intro ids d
    cases d
    cases ids <;> simp [writeAll, SplitDirContents.concat, emptyDir]
  | cons it items ih =>
    intro ids d
    cases ids with
    | nil =>
      cases d
      simp [writeAll, SplitDirContents.concat, emptyDir]
    | cons mix_id ids =>
      show writeAll serialize (saveOne serialize d it mix_id) items ids = _
      rw [ih ids (saveOne serialize d it mix_id), saveOne_concat,
        splitDir_concat_assoc, ← ih ids (saveOne serialize emptyDir it mix_id)]
      rfl

/-- C7: the save_split conflict policy — on an existing split directory,
policy error raises with the directory untouched (no file written); replace
yields exactly the freshly written contents, the prior ones gone; append
yields the prior contents with the new items' audio files and metadata lines
appended after them; and on a missing directory every policy proceeds and
writes the items. -/
theorem save_split_conflict_policy (serialize : MisophoniaItem → String)
    (d : SplitDirContents) (items : List MisophoniaItem) (ids : List String) :
    saveSplit serialize (some d) .error items ids = .raised (some d) ∧
    saveSplit serialize (some d) .replace items ids =
      .saved (writeAll serialize emptyDir items ids) ∧
    saveSplit serialize (some d) .append items ids =
      .saved (d.concat (writeAll serialize emptyDir items ids)) ∧
    (∀ pol, saveSplit serialize none pol items ids =
      .saved (writeAll serialize emptyDir items ids)) := by
  refine ⟨rfl, rfl, ?_, fun pol => by cases pol <;> rfl⟩
  show SaveResult.saved (writeAll serialize d items ids) = _
  rw [writeAll_concat serialize items ids d]

/-- The RMS helper _get_rms of pad_and_normalize_audio_files (mixing.py):
square root of the mean of the squared samples, with real-valued samples
standing for numpy floats.  (For an empty track Lean's 0/0 = 0 makes the RMS
0.) -/
noncomputable def getRms (aud : List ℝ) : ℝ :=
  Real.sqrt ((aud.map fun x => x ^ 2).sum / aud.length)

/-- The normalization target rms_target = np.mean(rms_list), the mean RMS
over all foreground and background tracks of one mix together. -/
noncomputable def rmsTarget (fg_audios bg_audios : List (List ℝ)) : ℝ :=
  ((fg_audios ++ bg_audios).map getRms).sum /
    ((fg_audios ++ bg_audios).map getRms).length

/-- The per-track rescaling audio * rms_target / _get_rms(audio) of
pad_and_normalize_audio_files: elementwise, with no epsilon guard on the
track's own RMS. -/
noncomputable def rmsScale (target : ℝ) (aud : List ℝ) : List ℝ :=
  aud.map fun x => x * target / getRms aud

theorem getRms_singleton (x : ℝ) : getRms [x] = |x| := by
  unfold getRms
  simp [Real.sqrt_sq_eq_abs]

theorem getRms_scale_mul (aud : List ℝ) (c : ℝ) (hc : 0 ≤ c) :
    getRms (aud.map fun x => x * c) = getRms aud * c := by
  unfold getRms
  rw [List.map_map]
  have hmap : ((fun x => x ^ 2) ∘ fun x => x * c) = fun x => x ^ 2 * c ^ 2 := by
    funext x
    simp [mul_pow]
  rw [hmap, List.sum_map_mul_right, List.length_map]
  have hS : 0 ≤ (aud.map fun x => x ^ 2).sum := List.sum_nonneg (by
    intro y hy
    obtain ⟨x, _, rfl⟩ := List.mem_map.mp hy
    positivity)
  have h1 : (aud.map fun x => x ^ 2).sum * c ^ 2 / aud.length =
      ((aud.map fun x => x ^ 2).sum / aud.length) * c ^ 2 := by ring
  rw [h1, Real.sqrt_mul (div_nonneg hS (Nat.cast_nonneg _)), Real.sqrt_sq_eq_abs,
    abs_of_nonneg hc]

theorem rmsTarget_nonneg (fg_audios bg_audios : List (List ℝ)) :
    0 ≤ rmsTarget fg_audios bg_audios := by
  unfold rmsTarget
  apply div_nonneg
  · apply List.sum_nonneg
    intro y hy
    obtain ⟨l, _, rfl⟩ := List.mem_map.mp hy
    exact Real.sqrt_nonneg _
  · exact Nat.cast_nonneg _

/-- C5 amended: the normalization rescales every track of the mix whose RMS
is nonzero to the mean RMS target exactly (so in particular within any
positive epsilon of it); there is no epsilon no-op guard — a track of
arbitrarily small nonzero RMS is rescaled like any other, and a zero-RMS
track is divided by zero. -/
theorem rms_normalization_exact (fg_audios bg_audios : List (List ℝ))
    (aud : List ℝ) (hmem : aud ∈ fg_audios ++ bg_audios)
    (h : getRms aud ≠ 0) :
    getRms (rmsScale (rmsTarget fg_audios bg_audios) aud) =
      rmsTarget fg_audios bg_audios := by
  clear hmem
  have hr0 : 0 ≤ getRms aud := Real.sqrt_nonneg _
  have ht : 0 ≤ rmsTarget fg_audios bg_audios := rmsTarget_nonneg _ _
  have hfun : (fun x => x * rmsTarget fg_audios bg_audios / getRms aud) =
      (fun x => x * (rmsTarget fg_audios bg_audios / getRms aud)) := by
    funext x
    ring
  unfold rmsScale
  rw [hfun, getRms_scale_mul aud _ (div_nonneg ht hr0), mul_comm,
    div_mul_cancel₀ _ h]

/-- C5 claim as stated: some positive epsilon threshold makes the
normalization leave every below-threshold track unchanged while bringing
every other track's RMS within epsilon of the shared target. -/
def rmsNoOpClaim : Prop :=
  ∃ ε : ℝ, 0 < ε ∧
    ∀ (fg_audios bg_audios : List (List ℝ)), ∀ aud ∈ fg_audios ++ bg_audios,
      (getRms aud < ε → rmsScale (rmsTarget fg_audios bg_audios) aud = aud) ∧
      (ε ≤ getRms aud →
        |getRms (rmsScale (rmsTarget fg_audios bg_audios) aud) -
          rmsTarget fg_audios bg_audios| < ε)

/-- C5 counterexample: no epsilon threshold exists — for any ε > 0 the mix
of a track [1] with the near-silent track [s], s = min ε 1 / 2, has
RMS(track [s]) = s < ε, yet normalization rescales [s] to [(1 + s) / 2] ≠
[s], so the below-threshold track is not left unchanged (the code divides by
the tiny RMS unconditionally). -/
theorem rms_noop_claim_false : ¬ rmsNoOpClaim := by
  rintro ⟨ε, hε, h⟩
  have hmin : 0 < min ε 1 := lt_min hε one_pos
  set s : ℝ := min ε 1 / 2 with hsdef
  have hs0 : 0 < s := half_pos hmin
  have hs1 : s < 1 := by
    have h2 : min ε 1 ≤ 1 := min_le_right ε 1
    rw [hsdef]
    linarith
  have hsε : s < ε := by
    have h2 : min ε 1 ≤ ε := min_le_left ε 1
    rw [hsdef]
    linarith
  have hmem : [s] ∈ [[(1:ℝ)]] ++ [[s]] := by simp
  have hrms : getRms [s] = s := by rw [getRms_singleton, abs_of_pos hs0]
  have hnoop := (h [[(1:ℝ)]] [[s]] [s] hmem).1 (by rw [hrms]; exact hsε)
  have htarget : rmsTarget [[(1:ℝ)]] [[s]] = (1 + s) / 2 := by
    unfold rmsTarget
    simp [getRms_singleton, abs_of_pos hs0]
  have hscale : rmsScale (rmsTarget [[(1:ℝ)]] [[s]]) [s] = [(1 + s) / 2] := by
    unfold rmsScale
    rw [htarget]
    simp only [List.map_cons, List.map_nil, hrms]
    rw [mul_comm, mul_div_assoc, div_self hs0.ne', mul_one]
  rw [hscale] at hnoop
  simp only [List.cons.injEq, and_true] at hnoop
  linarith

theorem rms_normalization_exact_witness :
    [(1:ℝ)] ∈ [[(1:ℝ)]] ++ [[(3:ℝ)]] ∧ getRms [(1:ℝ)] ≠ 0 ∧
    getRms (rmsScale (rmsTarget [[(1:ℝ)]] [[(3:ℝ)]]) [(1:ℝ)]) =
      rmsTarget [[(1:ℝ)]] [[(3:ℝ)]] := by
  have hmem : [(1:ℝ)] ∈ [[(1:ℝ)]] ++ [[(3:ℝ)]] := by simp
  have hne : getRms [(1:ℝ)] ≠ 0 := by
    rw [getRms_singleton]
    norm_num
  exact ⟨hmem, hne, rms_normalization_exact [[(1:ℝ)]] [[(3:ℝ)]] [(1:ℝ)] hmem hne⟩

/-- The before-validator _auto_compute_categories when categories are not
supplied: the union of the constituent tracks' labels (Python's set order is
unspecified; modelled as first-occurrence dedup). -/
def autoCategories (tracks : List SourceTrack) : List String :=
  ((tracks.map fun t => t.source_item.labels).flatten).dedup

/-- Modelled from the spec: the final binaural_mix that misophonia_dataset.py
imports from .mixing is absent from the checked-in mixing.py (which holds an
older draft with a path-based signature).  Per spec §4.3, over an abstract
external renderer: render once over foregrounds plus backgrounds for the
mix; when is_trig, render the foregrounds alone under the identical global
parameters as the ground truth and assert its shape equals the mix's; when
not is_trig the ground truth is absent. -/
def binauralMix
    (render : List (SourceTrack × List ℚ) → GlobalMixingParams → Waveform)
    (fg_specs bg_specs : List (SourceTrack × List ℚ))
    (global_params : GlobalMixingParams) (is_trig : Bool) :
    Except String (Waveform × Option Waveform) :=
  let mix := render (fg_specs ++ bg_specs) global_params
  if is_trig then
    let ground_truth := render fg_specs global_params
    if ground_truth.channels = mix.channels ∧
        ground_truth.sampleCount = mix.sampleCount then
      .ok (mix, some ground_truth)
    else
      .error "Ground truth and mix shapes do not match."
  else
    .ok (mix, none)

theorem binauralMix_false
    (render : List (SourceTrack × List ℚ) → GlobalMixingParams → Waveform)
    (fg_specs bg_specs : List (SourceTrack × List ℚ))
    (global_params : GlobalMixingParams) :
    binauralMix render fg_specs bg_specs global_params false =
      .ok (render (fg_specs ++ bg_specs) global_params, none) := rfl

/-- The experimental-pair derivation _get_paired_control_item
(misophonia_dataset.py): assert the control item has a uuid; keep the
trigger item's backgrounds and global mixing parameters; load the control
item's single foreground audio; rebuild the foreground track from the
trigger's first foreground via model_copy with the control source item, the
trigger's start, and end = start + len(control audio); re-render with
is_trig = False; construct the derived item (running the pydantic
validators) with paired_uuid = the trigger's uuid.  Audio loading is
abstracted by load (SourceDataItem.load_audio at the mix's sample rate);
indexing an empty foregrounds tuple is Python's IndexError. -/
def getPairedControlItem (load : SourceDataItem → Int → List ℚ)
    (render : List (SourceTrack × List ℚ) → GlobalMixingParams → Waveform)
    (split : SplitT) (original_trig original_control : MisophoniaItem) :
    Except String MisophoniaItem :=
  if original_control.uuid = none then
    .error "Original control item must have a UUID"
  else
    match original_control.foregrounds, original_trig.foregrounds with
    | control_fg :: _, trig_fg :: _ =>
      let global_mixing_params := original_trig.global_mixing_params
      let sample_rate := global_mixing_params.sample_rate
      let bg_specs := original_trig.backgrounds.map
        fun track => (track, load track.source_item sample_rate)
      let bg_tracks := original_trig.backgrounds
      let control_item := control_fg.source_item
      let control_audio := load control_item sample_rate
      let fg_track := { trig_fg with
        source_item := control_item,
        start := trig_fg.start,
        «end» := trig_fg.start + (control_audio.length : Int) }
      match binauralMix render [(fg_track, control_audio)] bg_specs
          global_mixing_params false with
      | .error e => .error e
      | .ok (mix, ground_truth) =>
        MisophoniaItem.validate
          { split := split,
            is_trigger := false,
            foreground_categories := autoCategories [fg_track],
            background_categories := autoCategories bg_tracks,
            mix := .wave mix,
            ground_truth := ground_truth.map .wave,
            length := mix.sampleCount,
            foregrounds := [fg_track],
            backgrounds := bg_tracks,
            global_mixing_params := global_mixing_params,
            paired_uuid := original_trig.uuid }
    | _, _ => .error "IndexError: foregrounds is empty"

/-- C9: a successfully derived experimental control item keeps the trigger
item's backgrounds and global mixing parameters unchanged; its single
foreground track is the trigger's first foreground (hence the same azimuth,
elevation, level and reverb) with the source item swapped to the control's
single foreground source, the same start, and end = start + control audio
length; it has is_trigger = false with absent ground truth; and its
paired_uuid equals the trigger item's uuid. -/
theorem paired_control_item_spec (load : SourceDataItem → Int → List ℚ)
    (render : List (SourceTrack × List ℚ) → GlobalMixingParams → Waveform)
    (split : SplitT) (trig ctrl item : MisophoniaItem)
    (h : getPairedControlItem load render split trig ctrl = .ok item) :
    item.backgrounds = trig.backgrounds ∧
    item.global_mixing_params = trig.global_mixing_params ∧
    item.is_trigger = false ∧
    item.ground_truth = none ∧
    item.paired_uuid = trig.uuid ∧
    ∃ trig_fg trest ctrl_fg crest,
      trig.foregrounds = trig_fg :: trest ∧
      ctrl.foregrounds = ctrl_fg :: crest ∧
      item.foregrounds = [{ trig_fg with
        source_item := ctrl_fg.source_item,
        start := trig_fg.start,
        «end» := trig_fg.start +
          ((load ctrl_fg.source_item
            trig.global_mixing_params.sample_rate).length : Int) }] := by
  unfold getPairedControlItem at h
  split at h
  · cases h
  · split at h
    case _ control_fg cfs trig_fg tfs hcf htf =>
      simp only [binauralMix_false] at h
      have hitem := validate_ok_eq _ _ h
      subst hitem
      exact ⟨rfl, rfl, rfl, rfl, rfl,
        trig_fg, tfs, control_fg, cfs, htf, hcf, rfl⟩
    case _ =>
      cases h

/-- A concrete control source item for the pairing witness. -/
def srcCtrlW : SourceDataItem :=
  { split := .test, source_dataset := "fsd50k", file_path := "c2.wav",
    label_type := .control, labels := ["music"] }

/-- A concrete validated trigger source item. -/
def srcTrigW : SourceDataItem :=
  { split := .test, source_dataset := "esc50", file_path := "t.wav",
    label_type := .trigger, labels := ["chewing"],
    validated_by := some ["FOAMS"] }

/-- A concrete background source item. -/
def srcBgW : SourceDataItem :=
  { split := .test, source_dataset := "fsd50k", file_path := "b.wav",
    label_type := .background, labels := ["rain"] }

/-- The trigger item's foreground track. -/
def trackTrigW : SourceTrack :=
  { source_item := srcTrigW, start := 2, «end» := 5,
    azimuth := 30, elevation := -10, level := 7/10, reverb := 1/10 }

/-- The shared background track. -/
def trackBgW : SourceTrack :=
  { source_item := srcBgW, start := 0, «end» := 3,
    azimuth := -45, elevation := 0, level := 7/10, reverb := 0 }

/-- The control item's foreground track. -/
def trackCtrlW : SourceTrack :=
  { source_item := srcCtrlW, start := 1, «end» := 4,
    azimuth := 0, elevation := 0, level := 1/2, reverb := 0 }

/-- A concrete persisted trigger item of the test split. -/
def trigItemW : MisophoniaItem :=
  { split := .test, uuid := some "trig-uuid", is_trigger := true,
    foreground_categories := ["chewing"], background_categories := ["rain"],
    mix := .wave waveThree, ground_truth := some (.wave waveThree),
    length := 3, foregrounds := [trackTrigW], backgrounds := [trackBgW],
    global_mixing_params := gmpFixed }

/-- A concrete persisted control item of the test split. -/
def ctrlItemW : MisophoniaItem :=
  { split := .test, uuid := some "ctrl-uuid", is_trigger := false,
    foreground_categories := ["music"], background_categories := ["rain"],
    mix := .wave waveThree, ground_truth := none,
    length := 3, foregrounds := [trackCtrlW], backgrounds := [trackBgW],
    global_mixing_params := gmpFixed }

/-- A concrete audio loader: every file holds two samples. -/
def loadW : SourceDataItem → Int → List ℚ := fun _ _ => [1, 0]

/-- A concrete renderer: every mix renders to the fixed waveform. -/
def renderW : List (SourceTrack × List ℚ) → GlobalMixingParams → Waveform :=
  fun _ _ => waveThree

/-- The foreground track the pairing builds on the witness fixtures: the
trigger track's spatialization with the control source, the trigger's start,
and end = start + the two-sample control audio length. -/
def trackPairedW : SourceTrack :=
  { source_item := srcCtrlW, start := 2, «end» := 4,
    azimuth := 30, elevation := -10, level := 7/10, reverb := 1/10 }

/-- The derived item the pairing produces on the witness fixtures. -/
def pairedItemW : MisophoniaItem :=
  { split := .test, is_trigger := false,
    foreground_categories := ["music"], background_categories := ["rain"],
    mix := .wave waveThree, ground_truth := none, length := 3,
    foregrounds := [trackPairedW],
    backgrounds := [trackBgW], global_mixing_params := gmpFixed,
    paired_uuid := some "trig-uuid" }

theorem paired_control_item_spec_witness :
    getPairedControlItem loadW renderW .test trigItemW ctrlItemW =
      .ok pairedItemW ∧
    pairedItemW.backgrounds = trigItemW.backgrounds ∧
    pairedItemW.is_trigger = false ∧ pairedItemW.ground_truth = none ∧
    pairedItemW.paired_uuid = trigItemW.uuid := by
  have h : getPairedControlItem loadW renderW .test trigItemW ctrlItemW =
      .ok pairedItemW := by rfl
  obtain ⟨h1, _, h3, h4, h5, _⟩ :=
    paired_control_item_spec loadW renderW .test trigItemW ctrlItemW
      pairedItemW h
  exact ⟨h, h1, h3, h4, h5⟩

end MisoDataset
